import Mathlib

/-!
Verification of the inner-realm tile-progression engine.

This file gives a shallow embedding, in Lean 4, of the core game logic of
the repository: the region registry (`src/lib/world/regions.ts`), the
progression calculator (`src/lib/world/progression.ts`), the tile index /
adjacency engine (`src/lib/world/unlockRules.ts`), the game store's
`spendResourceOnTile` transaction (`src/store/useGameStore.ts`), the timer
store (`src/store/useTimerStore.ts`), the world layout sync
(`src/lib/world/syncInnerRealm.ts`) and the startup data-repair pass of
`src/lib/db.ts`.  JavaScript numbers are modelled as `ℚ` where fractional
values can occur (minute arguments, difficulty multipliers, ratios) and as
`ℤ`/`ℕ` where the program only ever stores integers.  `Math.floor` is
`Int.floor`, `Math.round` is `fun q => ⌊q + 1/2⌋` (round half towards
+∞, which is what JS `Math.round` does), and JS `Map` lookups are
modelled by last-write-wins list folds.
-/

namespace InnerRealm

/-- The ten region identifiers of `RegionType` in `src/lib/types.ts`. -/
inductive Region where
  | mountains_doubt
  | river_despair
  | wastelands_ash_dust
  | forest_decay
  | great_depths
  | planes_fire_ice
  | crystal_citadel
  | shadows_broken_sky
  | floating_might_have_been
  | void_heart
deriving DecidableEq, Repr

/-- The non-null tile feature markers of `TileFeature`. -/
inductive Feature where
  | gate
  | void
  | jailor_citadel
  | black_star
deriving DecidableEq, Repr

/-- `ActivityType` from `src/lib/types.ts` (current variant). -/
inductive Activity where
  | work
  | study
  | sport
  | mindfulness
  | income
  | habit
  | meditation
deriving DecidableEq, Repr

/-- Region groups from `src/lib/world/regions.ts`. -/
inductive RegionGroup where
  | wastelands
  | river
  | citadel
  | voidGroup
deriving DecidableEq, Repr

/-- The `group` field of each entry of the `REGIONS` registry. -/
def regionGroup : Region → RegionGroup
  | .mountains_doubt => .wastelands
  | .river_despair => .river
  | .wastelands_ash_dust => .wastelands
  | .forest_decay => .wastelands
  | .great_depths => .wastelands
  | .planes_fire_ice => .wastelands
  | .crystal_citadel => .citadel
  | .shadows_broken_sky => .citadel
  | .floating_might_have_been => .citadel
  | .void_heart => .voidGroup

/-- `GROUP_ALLOWED_ACTIVITIES` from `src/lib/world/regions.ts`. -/
def groupAllowedActivities : RegionGroup → List Activity
  | .wastelands => [.sport, .habit]
  | .river => [.meditation]
  | .citadel => [.work, .study]
  | .voidGroup => [.work, .study, .meditation, .sport, .habit]

/-- `difficultyMult` of each entry of the `REGIONS` registry
(`src/lib/world/regions.ts`). -/
def difficultyMult : Region → ℚ
  | .mountains_doubt => 9/10
  | .river_despair => 11/10
  | .wastelands_ash_dust => 3/4
  | .forest_decay => 1
  | .great_depths => 5/4
  | .planes_fire_ice => 27/20
  | .crystal_citadel => 3/2
  | .shadows_broken_sky => 8/5
  | .floating_might_have_been => 17/10
  | .void_heart => 2

/-- `regionDifficultyMult` accessor (`regionDef(region).difficultyMult`). -/
def regionDifficultyMult (r : Region) : ℚ := difficultyMult r

/-- `allowedActivitiesForRegion`: the registry entries define no
per-region `allowedActivities` override, so the group default applies. -/
def allowedActivitiesForRegion (r : Region) : List Activity :=
  groupAllowedActivities (regionGroup r)

/-- The region id string persisted in the `tiles.region` column. -/
def Region.toId : Region → String
  | .mountains_doubt => "mountains_doubt"
  | .river_despair => "river_despair"
  | .wastelands_ash_dust => "wastelands_ash_dust"
  | .forest_decay => "forest_decay"
  | .great_depths => "great_depths"
  | .planes_fire_ice => "planes_fire_ice"
  | .crystal_citadel => "crystal_citadel"
  | .shadows_broken_sky => "shadows_broken_sky"
  | .floating_might_have_been => "floating_might_have_been"
  | .void_heart => "void_heart"

/-- The feature string persisted in the `tiles.feature` column. -/
def Feature.toId : Feature → String
  | .gate => "gate"
  | .void => "void"
  | .jailor_citadel => "jailor_citadel"
  | .black_star => "black_star"

/-- A row of the in-memory tile snapshot (`Tile` in `src/lib/types.ts`,
after `normalizeTiles`).  `locked` is kept as an integer flag because the
source compares it with `=== 1` / `=== 0`. -/
structure Tile where
  id : String
  row : ℤ
  col : ℤ
  region : Region
  level : ℕ
  progress : ℤ
  feature : Option Feature
  locked : ℤ
deriving DecidableEq, Repr

/-! ## Progression calculator (`src/lib/world/progression.ts`) -/

/-- `MAX_LEVEL = 3`. -/
def MAX_LEVEL : ℕ := 3

/-- `BASE_MIN = 60`. -/
def BASE_MIN : ℚ := 60

/-- JS `Math.round`: round half towards positive infinity. -/
def jsRound (q : ℚ) : ℤ := ⌊q + 1/2⌋

/-- `segmentNeed(level, region)`: minutes for the segment level → level+1,
`Math.max(1, Math.round(BASE_MIN * (level + 1) * mult))`. -/
def segmentNeed (level : ℕ) (r : Region) : ℤ :=
  max 1 (jsRound (BASE_MIN * (level + 1) * regionDifficultyMult r))

/-- `totalRequiredForLevel(level, region)`: the loop
`for (i = 0; i < level; i++) total += segmentNeed(i, region)`. -/
def totalRequiredForLevel : ℕ → Region → ℤ
  | 0, _ => 0
  | n + 1, r => totalRequiredForLevel n r + segmentNeed n r

/-- The `while (lvl < MAX_LEVEL && total >= totalRequiredForLevel(lvl+1))`
loop; the guard `lvl < MAX_LEVEL` bounds it by `MAX_LEVEL` iterations, so
fuel `MAX_LEVEL` makes the recursion exact. -/
def levelLoop (total : ℤ) (r : Region) : ℕ → ℕ → ℕ
  | 0, lvl => lvl
  | fuel + 1, lvl =>
    if lvl < MAX_LEVEL ∧ totalRequiredForLevel (lvl + 1) r ≤ total then
      levelLoop total r fuel (lvl + 1)
    else lvl

/-- `computeLevelFromTotalMinutes(total, region)`. -/
def computeLevelFromTotalMinutes (total : ℤ) (r : Region) : ℕ :=
  levelLoop total r MAX_LEVEL 0

/-- `applyMinutes(tile, add)`: progress is clamped at 0 from below and the
level is recomputed from the new cumulative total. -/
def applyMinutes (t : Tile) (add : ℤ) : Tile :=
  let total := max 0 (t.progress + add)
  { t with progress := total, level := computeLevelFromTotalMinutes total t.region }

/-- `tileProgressRatio(t)`: fraction of the current segment completed,
exactly 1 at `MAX_LEVEL`. -/
def tileProgressRatio (t : Tile) : ℚ :=
  let level := max 0 (min MAX_LEVEL t.level)
  if MAX_LEVEL ≤ level then 1
  else
    let start := totalRequiredForLevel level t.region
    let need := segmentNeed level t.region
    let within : ℤ := max 0 (t.progress - start)
    max 0 (min 1 ((within : ℚ) / ((max 1 need : ℤ) : ℚ)))

/-- `60 * difficultyMult r` is an integer for every region of the
registry; this is the per-segment increment used in closed forms. -/
def sixtyMult : Region → ℤ
  | .mountains_doubt => 54
  | .river_despair => 66
  | .wastelands_ash_dust => 45
  | .forest_decay => 60
  | .great_depths => 75
  | .planes_fire_ice => 81
  | .crystal_citadel => 90
  | .shadows_broken_sky => 96
  | .floating_might_have_been => 102
  | .void_heart => 120

/-! ## Tile index / adjacency engine (`src/lib/world/unlockRules.ts`)

`buildTileIndex` fills two JS `Map`s by iterating the tile list and
overwriting on key collision, so a lookup returns the LAST tile with the
given key.  We model the index by the tile list itself and the lookups by
last-write-wins folds. -/

/-- `byId` lookup of `TileIndex` (JS `Map.set` then `Map.get`). -/
def byId (tiles : List Tile) (id : String) : Option Tile :=
  tiles.foldl (fun acc t => if t.id = id then some t else acc) none

/-- `byPos` lookup of `TileIndex`, keyed on the (row, col) position. -/
def byPos (tiles : List Tile) (row col : ℤ) : Option Tile :=
  tiles.foldl (fun acc t => if t.row = row ∧ t.col = col then some t else acc) none

/-- The `N8` offset table of the eight king-move neighbors. -/
def N8 : List (ℤ × ℤ) :=
  [(-1, -1), (-1, 0), (-1, 1), (0, -1), (0, 1), (1, -1), (1, 0), (1, 1)]

/-- `neighbors8(row, col)`. -/
def neighbors8 (row col : ℤ) : List (ℤ × ℤ) :=
  N8.map (fun d => (row + d.1, col + d.2))

/-- `isHardLocked(tile)`: `locked === 1 || feature === "void" || region === "void_heart"`. -/
def isHardLocked (t : Tile) : Bool :=
  t.locked == 1 || t.feature == some Feature.void || t.region == Region.void_heart

/-- `isConquered(tile)`: `level >= 1 && !isHardLocked(tile)`. -/
def isConquered (t : Tile) : Bool :=
  decide (1 ≤ t.level) && !isHardLocked t

/-- `touchesConquered(tile, index)`: some neighbor position holds a
conquered tile. -/
def touchesConquered (t : Tile) (tiles : List Tile) : Bool :=
  (neighbors8 t.row t.col).any fun p =>
    match byPos tiles p.1 p.2 with
    | some nb => isConquered nb
    | none => false

/-- `isFrontier(tile, index)`. -/
def isFrontier (t : Tile) (tiles : List Tile) : Bool :=
  t.level == 0 && !isHardLocked t && touchesConquered t tiles

/-- `canInvest(tile, index)`. -/
def canInvest (t : Tile) (tiles : List Tile) : Bool :=
  isConquered t || isFrontier t tiles

/-- `hasOpenedGate(tiles)`: some tile has `feature == "gate"` and `level >= 1`. -/
def hasOpenedGate (tiles : List Tile) : Bool :=
  tiles.any fun t => t.feature == some Feature.gate && decide (1 ≤ t.level)

/-! ## Game store: `spendResourceOnTile` (`src/store/useGameStore.ts`) -/

/-- The spendable resource pools (`SpendableResource`). -/
inductive SpendableResource where
  | craft
  | lore
  | vigor
  | clarity
deriving DecidableEq, Repr

/-- `ACTIVITY_FOR_RESOURCE`. -/
def activityForResource : SpendableResource → Activity
  | .craft => .work
  | .lore => .study
  | .vigor => .sport
  | .clarity => .mindfulness

/-- `normalizeActivity` (`src/lib/resourceModel.ts`): legacy "meditation"
becomes "mindfulness". -/
def normalizeActivity (a : Activity) : Activity :=
  if a = .meditation then .mindfulness else a

/-- `isActivityAllowedOnTile(activity, tile)` with its backwards-compat
clause for realms that still list "meditation". -/
def isActivityAllowedOnTile (activity : Activity) (t : Tile) : Bool :=
  let a := normalizeActivity activity
  let allowed := allowedActivitiesForRegion t.region
  if a = .mindfulness ∧ allowed.contains .meditation then true
  else allowed.contains a

/-- `clampInt(n, min)` without an upper bound:
`Math.max(min, Math.floor(Number(n) || 0))`. -/
def clampInt (n : ℚ) (lo : ℤ) : ℤ :=
  max lo ⌊n⌋

/-- The slice of the game store state that `spendResourceOnTile` reads and
writes: the player's pools and the in-memory tile snapshot. -/
structure GameState where
  xp : ℤ
  craft : ℤ
  lore : ℤ
  vigor : ℤ
  clarity : ℤ
  gold : ℤ
  tiles : List Tile
deriving DecidableEq, Repr

/-- `Number(state[resource] ?? 0)`. -/
def poolOf (st : GameState) : SpendableResource → ℤ
  | .craft => st.craft
  | .lore => st.lore
  | .vigor => st.vigor
  | .clarity => st.clarity

/-- `set({ [resource]: nextPool })`. -/
def setPool (st : GameState) (res : SpendableResource) (v : ℤ) : GameState :=
  match res with
  | .craft => { st with craft := v }
  | .lore => { st with lore := v }
  | .vigor => { st with vigor := v }
  | .clarity => { st with clarity := v }

/-- The typed failure reasons of `spendResourceOnTile`, one per
`return { ok: false, reason: ... }` site, in source order. -/
inductive SpendFailure where
  | notEnoughResource
  | unknownTile
  | notInvestable
  | alreadyMaxed
  | realmMismatch
deriving DecidableEq, Repr

/-- The result value of `spendResourceOnTile`. -/
inductive SpendOutcome where
  | ok (unlockedNow : Bool)
  | failed (reason : SpendFailure)
deriving DecidableEq, Repr

/-- `spendResourceOnTile(tileId, resource, minutes)`.  The returned state
is the store state after the call: the failure paths perform no DB write
and no `set(...)`, so they return the input state unchanged; the success
path commits the updated tile list and pool (plus the Gate unlock of
`applyGateUnlock`, mirrored into the in-memory tile list). -/
def spendResourceOnTile (st : GameState) (tileId : String)
    (resource : SpendableResource) (minutes : ℚ) : GameState × SpendOutcome :=
  let spend := clampInt minutes 1
  let pool := poolOf st resource
  if pool < spend then (st, .failed .notEnoughResource)
  else
    match byId st.tiles tileId with
    | none => (st, .failed .unknownTile)
    | some t =>
      if ¬ canInvest t st.tiles then (st, .failed .notInvestable)
      else if MAX_LEVEL ≤ t.level then (st, .failed .alreadyMaxed)
      else if ¬ isActivityAllowedOnTile (activityForResource resource) t then
        (st, .failed .realmMismatch)
      else
        let updated := applyMinutes t spend
        let unlockedNow : Bool := decide (t.level < 1 ∧ 1 ≤ updated.level)
        let gateOpenedNow : Bool := (t.feature == some Feature.gate) && unlockedNow
        let nextPool := pool - spend
        let nextTiles0 := st.tiles.map fun x => if x.id = updated.id then updated else x
        let nextTiles :=
          if gateOpenedNow then
            nextTiles0.map fun x =>
              if x.region = Region.great_depths then { x with locked := 0 } else x
          else nextTiles0
        (setPool { st with tiles := nextTiles } resource nextPool, .ok unlockedNow)

/-! ## Timer store (`src/store/useTimerStore.ts`) -/

/-- `TimerSessionStatus`. -/
inductive TimerStatus where
  | running
  | stopped
  | committed
deriving DecidableEq, Repr

/-- `TimerMode`. -/
inductive TimerMode where
  | countdown
  | countup
deriving DecidableEq, Repr

/-- A `timer_sessions` row (also the `TimerSession` record). -/
structure TimerRow where
  id : String
  activity : Activity
  mode : TimerMode
  startedAt : ℤ
  endsAt : Option ℤ
  stoppedAt : Option ℤ
  status : TimerStatus
deriving DecidableEq, Repr

/-- The timer store state: the `timer_sessions` table plus the in-memory
`activeSession`. -/
structure TimerStore where
  db : List TimerRow
  active : Option TimerRow
deriving DecidableEq, Repr

/-- `ORDER BY startedAt DESC LIMIT 1` over a filtered row list: first row
with maximal `startedAt`. -/
def latestBy (rows : List TimerRow) (key : TimerRow → ℤ) : Option TimerRow :=
  rows.foldl
    (fun acc r =>
      match acc with
      | none => some r
      | some b => if key b < key r then some r else acc)
    none

/-- Result of `startSession`: either the freshly inserted running session,
or a refusal (reason "A timer session is already running.") carrying the
existing running session. -/
inductive StartOutcome where
  | ok (session : TimerRow)
  | alreadyRunning (session : TimerRow)
deriving DecidableEq, Repr

/-- `startSession(activity, mode, durationMinutes)`.  The guard queries
only rows with `status = 'running'`; `now` and `id` stand for
`Date.now()` and the generated id. -/
def startSession (st : TimerStore) (activity : Activity) (mode : TimerMode)
    (durationMinutes : Option ℚ) (now : ℤ) (id : String) :
    TimerStore × StartOutcome :=
  let runningRows := st.db.filter fun r => r.status == TimerStatus.running
  match latestBy runningRows (fun r => r.startedAt) with
  | some running => ({ st with active := some running }, .alreadyRunning running)
  | none =>
    let endsAt : Option ℤ :=
      match mode, durationMinutes with
      | .countdown, some d =>
        -- `durationMinutes` must be truthy: 0 (and null) yield no end time.
        if d = 0 then none else some (now + max 1 ⌊d⌋ * 60 * 1000)
      | _, _ => none
    let session : TimerRow :=
      { id := id, activity := activity, mode := mode, startedAt := now
        endsAt := endsAt, stoppedAt := none, status := .running }
    ({ db := st.db ++ [session], active := some session }, .ok session)

/-- `stopSession()`: only acts when the in-memory `activeSession` is a
running session. -/
def stopSession (st : TimerStore) (now : ℤ) : TimerStore × Option TimerRow :=
  match st.active with
  | none => (st, none)
  | some current =>
    if current.status ≠ TimerStatus.running then (st, some current)
    else
      let next := { current with status := .stopped, stoppedAt := some now }
      ({ db := st.db.map fun x =>
            if x.id = current.id then { x with status := .stopped, stoppedAt := some now } else x
         active := some next }, some next)

/-- Rows whose `status` is not `'committed'` (the non-terminal sessions). -/
def nonCommitted (rows : List TimerRow) : List TimerRow :=
  rows.filter fun r => r.status ≠ TimerStatus.committed

/-! ## World layout sync (`src/lib/world/syncInnerRealm.ts`, the variant
with a `gateOpened` parameter).

The canonical `INNER_REALM_LAYOUT` constant itself is not part of the
sources at hand, so the sync function is embedded with the layout grid as
an explicit parameter; everything else follows the source. -/

/-- A raw `tiles` row as the sync routine sees it (`region`/`feature` are
the persisted strings, so legacy and unknown region ids can occur). -/
structure TileRow where
  id : String
  row : ℤ
  col : ℤ
  region : String
  level : ℤ
  progress : ℤ
  feature : Option String
  locked : ℤ
deriving DecidableEq, Repr

/-- The persisted state the sync routine touches. -/
structure SyncDb where
  tiles : List TileRow
  targetTileId : Option String
deriving DecidableEq, Repr

/-- `REGION_BY_CODE` (digit → region); the sync code guards the lookup
with `ch >= '1' && ch <= '9'`, and any other argument falls through to
the same default as the outer decoder chain. -/
def regionByCode (ch : Char) : Region :=
  if ch = '1' then .mountains_doubt
  else if ch = '2' then .river_despair
  else if ch = '3' then .wastelands_ash_dust
  else if ch = '4' then .forest_decay
  else if ch = '5' then .great_depths
  else if ch = '6' then .planes_fire_ice
  else if ch = '7' then .crystal_citadel
  else if ch = '8' then .shadows_broken_sky
  else if ch = '9' then .floating_might_have_been
  else .wastelands_ash_dust

/-- `FEATURE_BY_CODE` (letter → feature). -/
def featureByCode (ch : Char) : Option Feature :=
  if ch = 'G' then some .gate
  else if ch = 'V' then some .void
  else if ch = 'J' then some .jailor_citadel
  else if ch = 'B' then some .black_star
  else none

/-- The result record of `decodeLayoutChar`. -/
structure Decoded where
  region : Region
  feature : Option Feature
  defaultLocked : ℤ
deriving DecidableEq, Repr

/-- `decodeLayoutChar(ch, gateOpened)`: region by digit code (V/B →
void_heart, J → wastelands_ash_dust, G → planes_fire_ice, default
wastelands_ash_dust), feature by letter code, and a hard lock only for
Void tiles and for the Great Depths while no Gate is open. -/
def decodeLayoutChar (ch : Char) (gateOpened : Bool) : Decoded :=
  let region : Region :=
    if '1' ≤ ch ∧ ch ≤ '9' then regionByCode ch
    else if ch = 'V' ∨ ch = 'B' then .void_heart
    else if ch = 'J' then .wastelands_ash_dust
    else if ch = 'G' then .planes_fire_ice
    else .wastelands_ash_dust
  let feature : Option Feature :=
    if ch = 'G' ∨ ch = 'V' ∨ ch = 'J' ∨ ch = 'B' then featureByCode ch
    else none
  let defaultLocked : ℤ :=
    if feature = some Feature.void ∨ region = Region.void_heart ∨
        (region = Region.great_depths ∧ gateOpened = false) then 1 else 0
  { region := region, feature := feature, defaultLocked := defaultLocked }

/-- The tile id `r-c` built from the grid position. -/
def mkId (r c : ℕ) : String :=
  toString r ++ "-" ++ toString c

/-- `line[c]` on a layout row; an index past the end of the string behaves
like a character that matches no decode table entry. -/
def charAt (layout : List String) (r c : ℕ) : Char :=
  ((layout.getD r "").toList).getD c ' '

/-- The legacy region ids the sync routine counts
(`region IN ('wastelands','river','citadel')`). -/
def legacyRegionIds : List String := ["wastelands", "river", "citadel"]

/-- `Object.keys(REGIONS)`: the valid region ids. -/
def validRegionIds : List String :=
  [Region.mountains_doubt, Region.river_despair, Region.wastelands_ash_dust,
   Region.forest_decay, Region.great_depths, Region.planes_fire_ice,
   Region.crystal_citadel, Region.shadows_broken_sky,
   Region.floating_might_have_been, Region.void_heart].map Region.toId

/-- The body of the double loop of `syncInnerRealmToLayout` for one grid
position `(r, c)`: INSERT a fresh row when the id is unknown to the
pre-loop `lockedById` snapshot (`origIds`), otherwise UPDATE the static
fields — including `locked`, overwritten with the decoded default. -/
def syncStep (layout : List String) (gateOpened : Bool) (origIds : List String)
    (db : List TileRow) : ℕ × ℕ → List TileRow
  | (r, c) =>
    let id := mkId r c
    let d := decodeLayoutChar (charAt layout r c) gateOpened
    if origIds.contains id then
      db.map fun t =>
        if t.id = id then
          { t with row := (r : ℤ), col := (c : ℤ), region := d.region.toId,
                   feature := d.feature.map Feature.toId, locked := d.defaultLocked }
        else t
    else
      db ++ [{ id := id, row := (r : ℤ), col := (c : ℤ), region := d.region.toId,
               level := 0, progress := 0, feature := d.feature.map Feature.toId,
               locked := d.defaultLocked }]

/-- Row-major iteration order of the double loop. -/
def gridPositions (rows cols : ℕ) : List (ℕ × ℕ) :=
  (List.range rows).flatMap fun r => (List.range cols).map fun c => (r, c)

/-- `syncInnerRealmToLayout()` over an explicit layout grid: early return
when the dimensions are degenerate or when counts match and no
legacy/unknown region ids are present; otherwise walk the grid
(insert/update), drop rows outside the shrunk bounds, and clear a
dangling `player.targetTileId`. -/
def syncInnerRealmToLayout (layout : List String) (db : SyncDb) : SyncDb :=
  let rows := layout.length
  let cols := (layout.headD "").length
  if rows = 0 ∨ cols = 0 then db
  else
    let expectedCount := rows * cols
    let currentCount := db.tiles.length
    let legacyCount := (db.tiles.filter fun t => legacyRegionIds.contains t.region).length
    let badCount := (db.tiles.filter fun t => ¬ validRegionIds.contains t.region).length
    if currentCount = expectedCount ∧ legacyCount = 0 ∧ badCount = 0 then db
    else
      let gateOpened := db.tiles.any fun t => t.feature == some "gate" && decide (1 ≤ t.level)
      let origIds := db.tiles.map (·.id)
      let tiles1 := (gridPositions rows cols).foldl (syncStep layout gateOpened origIds) db.tiles
      -- DELETE FROM tiles WHERE row >= rows OR col >= cols
      let tiles2 := tiles1.filter fun t => t.row < (rows : ℤ) ∧ t.col < (cols : ℤ)
      -- clear the target tile when it no longer exists
      let target :=
        match db.targetTileId with
        | some tid => if tiles2.any (fun t => t.id = tid) then some tid else none
        | none => none
      { tiles := tiles2, targetTileId := target }

/-! ## Startup data repair (`src/lib/db.ts`, `initDb`) -/

/-- The `CASE` expression of the legacy progress backfill
(`WHERE progress = 0 AND level > 0`). -/
def legacyProgressForLevel (level : ℤ) : ℤ :=
  if level ≤ 0 then 0
  else if level = 1 then 60
  else if level = 2 then 180
  else 360

/-- The `CASE` expression of the level repair UPDATE: fixed thresholds
60 / 180 / 360, applied to every tile row. -/
def repairLevel (progress : ℤ) : ℤ :=
  if 360 ≤ progress then 3
  else if 180 ≤ progress then 2
  else if 60 ≤ progress then 1
  else 0

/-- The two repair UPDATE passes of `initDb`, over the raw tile rows. -/
def initDbRepair (tiles : List TileRow) : List TileRow :=
  let backfilled := tiles.map fun t =>
    if t.progress = 0 ∧ 0 < t.level then { t with progress := legacyProgressForLevel t.level } else t
  backfilled.map fun t => { t with level := repairLevel t.progress }

/-! ## Concrete fixtures used by the witness theorems -/

/-- A conquered starting tile (level 1 at the region-scaled threshold). -/
def tileConquered : Tile := Tile.mk "0-0" 0 0 Region.mountains_doubt 1 54 none 0

/-- A level-0 Gate tile adjacent to the conquered tile. -/
def tileGate : Tile := Tile.mk "0-1" 0 1 Region.planes_fire_ice 0 0 (some Feature.gate) 0

/-- A hard-sealed Great Depths tile. -/
def tileDepthSealed : Tile := Tile.mk "5-5" 5 5 Region.great_depths 0 0 none 1

/-- The same Great Depths tile after the Gate unlock. -/
def tileDepthOpen : Tile := Tile.mk "5-5" 5 5 Region.great_depths 0 0 none 0

/-- The Gate tile after receiving 81 minutes (one full segment). -/
def tileGateDone : Tile := Tile.mk "0-1" 0 1 Region.planes_fire_ice 1 81 (some Feature.gate) 0

/-- A tile already at `MAX_LEVEL`. -/
def tileMaxed : Tile := Tile.mk "0-2" 0 2 Region.mountains_doubt 3 324 none 0

/-- A conquered Crystal Citadel tile (allows work/study only). -/
def tileCitadel : Tile := Tile.mk "0-3" 0 3 Region.crystal_citadel 1 90 none 0

/-- A Void Heart tile with the void feature. -/
def tileVoid : Tile := Tile.mk "4-4" 4 4 Region.void_heart 0 0 (some Feature.void) 1

/-- Gate-unlock scenario: conquered anchor, frontier Gate tile, sealed
Great Depths tile, 100 vigor. -/
def stGate : GameState :=
  GameState.mk 0 5 5 100 5 0 [tileConquered, tileGate, tileDepthSealed]

/-- The expected store state after spending 81 vigor on the Gate tile. -/
def stGateAfter : GameState :=
  GameState.mk 0 5 5 19 5 0 [tileConquered, tileGateDone, tileDepthOpen]

/-- A player with an empty craft pool. -/
def stPoor : GameState := GameState.mk 0 0 5 5 5 0 [tileConquered]

/-- A player with resources but no tile rows. -/
def stNoTile : GameState := GameState.mk 0 5 5 5 5 0 []

/-- A snapshot holding only the sealed Great Depths tile. -/
def stSealed : GameState := GameState.mk 0 5 5 5 5 0 [tileDepthSealed]

/-- A snapshot holding only a maxed tile. -/
def stMaxed : GameState := GameState.mk 0 5 5 5 5 0 [tileMaxed]

/-- A snapshot holding only a conquered Crystal Citadel tile. -/
def stCitadel : GameState := GameState.mk 0 5 5 5 5 0 [tileCitadel]

/-- A snapshot holding a conquered tile and a Void Heart tile. -/
def stVoid : GameState := GameState.mk 0 5 5 5 5 0 [tileConquered, tileVoid]

/-- A one-tile `tiles` table whose only row is hard-locked while the
layout default for its position is unlocked. -/
def syncDb0 : SyncDb :=
  SyncDb.mk [TileRow.mk "0-0" 0 0 "mountains_doubt" 0 0 none 1] none

/-- The tile row the seeder writes for the start anchor: level 1 at the
region-scaled threshold `totalRequiredForLevel(1, mountains_doubt) = 54`. -/
def startTileRow : TileRow := TileRow.mk "3-3" 3 3 "mountains_doubt" 1 54 none 0

/-- Timer store after starting a countup session `s1` at t = 0. -/
def timerSt1 : TimerStore :=
  (startSession (TimerStore.mk [] none) .work .countup none 0 "s1").1

/-- ... and after stopping it at t = 5. -/
def timerSt2 : TimerStore := (stopSession timerSt1 5).1

/-- A timer store holding one running session. -/
def timerRunningStore : TimerStore :=
  TimerStore.mk [TimerRow.mk "r1" .work .countup 0 none none .running] none

/-! ## Helper lemmas -/

lemma sixtyMult_cast (r : Region) :
    BASE_MIN * regionDifficultyMult r = (sixtyMult r : ℚ) := by
  cases r <;> norm_num [BASE_MIN, regionDifficultyMult, difficultyMult, sixtyMult]

lemma sixtyMult_pos (r : Region) : 0 < sixtyMult r := by
  cases r <;> simp [sixtyMult]

/-- Closed form: the rounded segment requirement is exactly
`(level + 1) * sixtyMult r`, because `60 * difficultyMult r` is integral
for every region of the registry. -/
@[simp] lemma segmentNeed_eq (level : ℕ) (r : Region) :
    segmentNeed level r = ((level : ℤ) + 1) * sixtyMult r := by
  have h := sixtyMult_cast r
  have hk : BASE_MIN * ((level : ℚ) + 1) * regionDifficultyMult r
      = ((((level : ℤ) + 1) * sixtyMult r : ℤ) : ℚ) := by
    push_cast
    linear_combination ((level : ℚ) + 1) * h
  have hround : jsRound (BASE_MIN * ((level : ℚ) + 1) * regionDifficultyMult r)
      = ((level : ℤ) + 1) * sixtyMult r := by
    rw [jsRound, hk, Int.floor_int_add]
    norm_num
  have h1 : (1 : ℤ) ≤ (level : ℤ) + 1 := by omega
  have h2 := sixtyMult_pos r
  have h3 : (1 : ℤ) ≤ ((level : ℤ) + 1) * sixtyMult r := by nlinarith
  unfold segmentNeed
  rw [hround]
  exact max_eq_right h3

lemma levelLoop_le (total : ℤ) (r : Region) :
    ∀ (fuel lvl : ℕ), lvl ≤ MAX_LEVEL → levelLoop total r fuel lvl ≤ MAX_LEVEL := by
  intro fuel
  induction fuel with
  | zero => intro lvl h; exact h
  | succ n ih =>
    intro lvl h
    unfold levelLoop
    split
    · next hcond => exact ih (lvl + 1) hcond.1
    · exact h

lemma computeLevel_le (total : ℤ) (r : Region) :
    computeLevelFromTotalMinutes total r ≤ MAX_LEVEL :=
  levelLoop_le total r MAX_LEVEL 0 (by norm_num [MAX_LEVEL])

lemma applyMinutes_region (t : Tile) (a : ℤ) : (applyMinutes t a).region = t.region := rfl

lemma applyMinutes_level_inv (t : Tile) (a : ℤ) :
    (applyMinutes t a).level =
      computeLevelFromTotalMinutes (applyMinutes t a).progress (applyMinutes t a).region := rfl

lemma applyMinutes_progress_mono (t : Tile) (a : ℤ) (ha : 0 ≤ a) :
    t.progress ≤ (applyMinutes t a).progress := by
  show t.progress ≤ max 0 (t.progress + a)
  exact le_trans (le_add_of_nonneg_right ha) (le_max_right 0 _)

lemma foldl_applyMinutes_region (adds : List ℤ) (t : Tile) :
    (adds.foldl applyMinutes t).region = t.region := by
  induction adds generalizing t with
  | nil => rfl
  | cons a rest ih => simpa [List.foldl] using ih (applyMinutes t a)

lemma foldl_applyMinutes_progress_mono (adds : List ℤ) (t : Tile)
    (h : ∀ a ∈ adds, 0 ≤ a) : t.progress ≤ (adds.foldl applyMinutes t).progress := by
  induction adds generalizing t with
  | nil => exact le_refl _
  | cons a rest ih =>
    calc t.progress ≤ (applyMinutes t a).progress :=
          applyMinutes_progress_mono t a (h a (List.mem_cons_self a rest))
      _ ≤ ((a :: rest).foldl applyMinutes t).progress := by
          simpa [List.foldl] using ih (applyMinutes t a) fun x hx => h x (List.mem_cons_of_mem a hx)

lemma foldl_applyMinutes_level_inv (adds : List ℤ) (t : Tile)
    (h : t.level = computeLevelFromTotalMinutes t.progress t.region) :
    (adds.foldl applyMinutes t).level =
      computeLevelFromTotalMinutes (adds.foldl applyMinutes t).progress
        (adds.foldl applyMinutes t).region := by
  induction adds generalizing t with
  | nil => exact h
  | cons a rest ih =>
    simpa [List.foldl] using ih (applyMinutes t a) (applyMinutes_level_inv t a)

lemma tileProgressRatio_at_max (t : Tile) (h : t.level = MAX_LEVEL) :
    tileProgressRatio t = 1 := by
  simp [tileProgressRatio, h]

/-! ## Claim theorems -/

/-- C5: starting from a tile whose `level` agrees with
`computeLevelFromTotalMinutes(progress, region)`, any sequence of
non-negative `applyMinutes` calls keeps `progress` non-decreasing, keeps
`level == computeLevelFromTotalMinutes(progress, region)`, never pushes
`level` above `MAX_LEVEL = 3`, and `tileProgressRatio` is exactly 1
whenever the level sits at `MAX_LEVEL`. -/
theorem applyMinutes_monotone_saturating (t : Tile) (adds : List ℤ)
    (hnn : ∀ a ∈ adds, 0 ≤ a)
    (hinv : t.level = computeLevelFromTotalMinutes t.progress t.region) :
    t.progress ≤ (adds.foldl applyMinutes t).progress ∧
    (adds.foldl applyMinutes t).level =
      computeLevelFromTotalMinutes (adds.foldl applyMinutes t).progress
        (adds.foldl applyMinutes t).region ∧
    (adds.foldl applyMinutes t).level ≤ MAX_LEVEL ∧
    ((adds.foldl applyMinutes t).level = MAX_LEVEL →
      tileProgressRatio (adds.foldl applyMinutes t) = 1) := by
  refine ⟨foldl_applyMinutes_progress_mono adds t hnn,
    foldl_applyMinutes_level_inv adds t hinv, ?_, ?_⟩
  · rw [foldl_applyMinutes_level_inv adds t hinv]
    exact computeLevel_le _ _
  · intro hmax
    exact tileProgressRatio_at_max _ hmax

/-- C5 witness: the scenario of the spec — a fresh `mountains_doubt` tile
receiving 60 then 50 then 100000 minutes stays within the invariants. -/
theorem applyMinutes_monotone_saturating_witness :
    (∀ a ∈ ([60, 50, 100000] : List ℤ), 0 ≤ a) ∧
    (Tile.mk "3-3" 3 3 Region.mountains_doubt 0 0 none 0).level =
      computeLevelFromTotalMinutes
        (Tile.mk "3-3" 3 3 Region.mountains_doubt 0 0 none 0).progress
        (Tile.mk "3-3" 3 3 Region.mountains_doubt 0 0 none 0).region ∧
    (([60, 50, 100000] : List ℤ).foldl applyMinutes
        (Tile.mk "3-3" 3 3 Region.mountains_doubt 0 0 none 0)).level ≤ MAX_LEVEL := by
  have h1 : ∀ a ∈ ([60, 50, 100000] : List ℤ), 0 ≤ a := by decide
  have h2 : (Tile.mk "3-3" 3 3 Region.mountains_doubt 0 0 none 0).level =
      computeLevelFromTotalMinutes 0 Region.mountains_doubt := by
    simp [computeLevelFromTotalMinutes, levelLoop, totalRequiredForLevel, MAX_LEVEL, sixtyMult]
  exact ⟨h1, h2,
    (applyMinutes_monotone_saturating _ _ h1 h2).2.2.1⟩

/-- C6: for every region of the registry, `totalRequiredForLevel` starts
at 0 and accumulates `segmentNeed` segment by segment, `segmentNeed` is
the rounded region-scaled formula, and it is strictly increasing in the
level. -/
theorem totalRequired_cumulative_and_segmentNeed_strict_mono (r : Region) (L : ℕ) :
    totalRequiredForLevel 0 r = 0 ∧
    totalRequiredForLevel (L + 1) r = totalRequiredForLevel L r + segmentNeed L r ∧
    segmentNeed L r = max 1 (jsRound (60 * ((L : ℚ) + 1) * regionDifficultyMult r)) ∧
    segmentNeed L r < segmentNeed (L + 1) r := by
  refine ⟨rfl, rfl, ?_, ?_⟩
  · rfl
  · rw [segmentNeed_eq, segmentNeed_eq]
    have hk := sixtyMult_pos r
    have : ((L : ℤ) + 1) < ((L : ℤ) + 1 + 1) := by omega
    push_cast
    nlinarith

lemma isConquered_iff (t : Tile) :
    isConquered t = true ↔ 1 ≤ t.level ∧ isHardLocked t = false := by
  simp [isConquered]

lemma touchesConquered_iff (t : Tile) (tiles : List Tile) :
    touchesConquered t tiles = true ↔
      ∃ p ∈ neighbors8 t.row t.col, ∃ nb, byPos tiles p.1 p.2 = some nb ∧
        1 ≤ nb.level ∧ isHardLocked nb = false := by
  unfold touchesConquered
  rw [List.any_eq_true]
  constructor
  · rintro ⟨p, hp, hf⟩
    cases hbp : byPos tiles p.1 p.2 with
    | none => rw [hbp] at hf; cases hf
    | some nb =>
      rw [hbp] at hf
      exact ⟨p, hp, nb, hbp, (isConquered_iff nb).mp hf⟩
  · rintro ⟨p, hp, nb, hbp, hlvl, hhl⟩
    exact ⟨p, hp, by rw [hbp]; exact (isConquered_iff nb).mpr ⟨hlvl, hhl⟩⟩

/-- C3: a level-0 tile that is not hard-locked is a frontier tile exactly
when one of its eight neighbor positions present in the index holds a
tile of level ≥ 1 that is not hard-locked; without such a neighbor the
tile cannot be invested into at all. -/
theorem isFrontier_iff_conquered_neighbor (tiles : List Tile) (t : Tile)
    (hlvl : t.level = 0) (hhl : isHardLocked t = false) :
    (isFrontier t tiles = true ↔
      ∃ p ∈ neighbors8 t.row t.col, ∃ nb, byPos tiles p.1 p.2 = some nb ∧
        1 ≤ nb.level ∧ isHardLocked nb = false) ∧
    ((¬ ∃ p ∈ neighbors8 t.row t.col, ∃ nb, byPos tiles p.1 p.2 = some nb ∧
        1 ≤ nb.level ∧ isHardLocked nb = false) → canInvest t tiles = false) := by
  have hfr : isFrontier t tiles = touchesConquered t tiles := by
    simp [isFrontier, hlvl, hhl]
  constructor
  · rw [hfr]
    exact touchesConquered_iff t tiles
  · intro hno
    have htc : touchesConquered t tiles = false := by
      cases h : touchesConquered t tiles with
      | false => rfl
      | true => exact absurd ((touchesConquered_iff t tiles).mp h) hno
    have hnc : isConquered t = false := by
      simp [isConquered, hlvl]
    simp [canInvest, hnc, hfr, htc]

/-- C3 witness: a 2-tile snapshot where the level-0 tile touches a
conquered tile diagonally, hence is frontier; and a lone far-away tile
with no conquered neighbor, hence not investable. -/
theorem isFrontier_iff_conquered_neighbor_witness :
    isFrontier (Tile.mk "1-1" 1 1 Region.forest_decay 0 0 none 0)
      [Tile.mk "0-0" 0 0 Region.mountains_doubt 1 54 none 0,
       Tile.mk "1-1" 1 1 Region.forest_decay 0 0 none 0] = true ∧
    canInvest (Tile.mk "9-9" 9 9 Region.forest_decay 0 0 none 0)
      [Tile.mk "0-0" 0 0 Region.mountains_doubt 1 54 none 0,
       Tile.mk "9-9" 9 9 Region.forest_decay 0 0 none 0] = false := by
  constructor
  · exact (isFrontier_iff_conquered_neighbor
      [Tile.mk "0-0" 0 0 Region.mountains_doubt 1 54 none 0,
       Tile.mk "1-1" 1 1 Region.forest_decay 0 0 none 0]
      (Tile.mk "1-1" 1 1 Region.forest_decay 0 0 none 0)
      (by decide) (by decide)).1.mpr (by decide)
  · exact (isFrontier_iff_conquered_neighbor
      [Tile.mk "0-0" 0 0 Region.mountains_doubt 1 54 none 0,
       Tile.mk "9-9" 9 9 Region.forest_decay 0 0 none 0]
      (Tile.mk "9-9" 9 9 Region.forest_decay 0 0 none 0)
      (by decide) (by decide)).2 (by decide)

/-! Helper lemmas about the spend transaction, one per return site. -/

lemma spend_fail_notEnough (st : GameState) (tileId : String)
    (res : SpendableResource) (m : ℚ) (h : poolOf st res < clampInt m 1) :
    spendResourceOnTile st tileId res m = (st, .failed .notEnoughResource) := by
  simp only [spendResourceOnTile, if_pos h]

lemma spend_fail_unknown (st : GameState) (tileId : String)
    (res : SpendableResource) (m : ℚ) (h : ¬ poolOf st res < clampInt m 1)
    (hb : byId st.tiles tileId = none) :
    spendResourceOnTile st tileId res m = (st, .failed .unknownTile) := by
  simp only [spendResourceOnTile, if_neg h]
  rw [hb]

lemma spend_fail_notInvestable (st : GameState) (tileId : String)
    (res : SpendableResource) (m : ℚ) (t : Tile)
    (h : ¬ poolOf st res < clampInt m 1) (hb : byId st.tiles tileId = some t)
    (hc : canInvest t st.tiles = false) :
    spendResourceOnTile st tileId res m = (st, .failed .notInvestable) := by
  simp only [spendResourceOnTile, if_neg h]
  rw [hb]
  simp [hc]

lemma spend_fail_maxed (st : GameState) (tileId : String)
    (res : SpendableResource) (m : ℚ) (t : Tile)
    (h : ¬ poolOf st res < clampInt m 1) (hb : byId st.tiles tileId = some t)
    (hc : canInvest t st.tiles = true) (hm : MAX_LEVEL ≤ t.level) :
    spendResourceOnTile st tileId res m = (st, .failed .alreadyMaxed) := by
  simp only [spendResourceOnTile, if_neg h]
  rw [hb]
  simp [hc, hm]

lemma spend_fail_mismatch (st : GameState) (tileId : String)
    (res : SpendableResource) (m : ℚ) (t : Tile)
    (h : ¬ poolOf st res < clampInt m 1) (hb : byId st.tiles tileId = some t)
    (hc : canInvest t st.tiles = true) (hm : t.level < MAX_LEVEL)
    (ha : isActivityAllowedOnTile (activityForResource res) t = false) :
    spendResourceOnTile st tileId res m = (st, .failed .realmMismatch) := by
  simp only [spendResourceOnTile, if_neg h]
  rw [hb]
  simp [hc, not_le.mpr hm, ha]

lemma spend_success (st : GameState) (tileId : String)
    (res : SpendableResource) (m : ℚ) (t : Tile)
    (h : ¬ poolOf st res < clampInt m 1) (hb : byId st.tiles tileId = some t)
    (hc : canInvest t st.tiles = true) (hm : t.level < MAX_LEVEL)
    (ha : isActivityAllowedOnTile (activityForResource res) t = true) :
    spendResourceOnTile st tileId res m =
      (setPool
        { st with tiles :=
            if (t.feature == some Feature.gate) &&
                decide (t.level < 1 ∧ 1 ≤ (applyMinutes t (clampInt m 1)).level) then
              (st.tiles.map fun x =>
                  if x.id = (applyMinutes t (clampInt m 1)).id then
                    applyMinutes t (clampInt m 1) else x).map fun x =>
                if x.region = Region.great_depths then { x with locked := 0 } else x
            else
              st.tiles.map fun x =>
                if x.id = (applyMinutes t (clampInt m 1)).id then
                  applyMinutes t (clampInt m 1) else x }
        res (poolOf st res - clampInt m 1),
       .ok (decide (t.level < 1 ∧ 1 ≤ (applyMinutes t (clampInt m 1)).level))) := by
  simp only [spendResourceOnTile, if_neg h]
  rw [hb]
  simp [hc, not_le.mpr hm, ha]

/-- Exhaustive case split on the outcome of the spend transaction. -/
lemma spend_cases (st : GameState) (tileId : String)
    (res : SpendableResource) (m : ℚ) :
    (∃ e, spendResourceOnTile st tileId res m = (st, .failed e)) ∨
    (∃ u s, spendResourceOnTile st tileId res m = (s, .ok u)) := by
  by_cases h1 : poolOf st res < clampInt m 1
  · exact Or.inl ⟨_, spend_fail_notEnough st tileId res m h1⟩
  · cases hb : byId st.tiles tileId with
    | none => exact Or.inl ⟨_, spend_fail_unknown st tileId res m h1 hb⟩
    | some t =>
      cases hc : canInvest t st.tiles with
      | false => exact Or.inl ⟨_, spend_fail_notInvestable st tileId res m t h1 hb hc⟩
      | true =>
        by_cases hm : MAX_LEVEL ≤ t.level
        · exact Or.inl ⟨_, spend_fail_maxed st tileId res m t h1 hb hc hm⟩
        · cases ha : isActivityAllowedOnTile (activityForResource res) t with
          | false =>
            exact Or.inl ⟨_, spend_fail_mismatch st tileId res m t h1 hb hc (not_le.mp hm) ha⟩
          | true =>
            exact Or.inr ⟨_, _, spend_success st tileId res m t h1 hb hc (not_le.mp hm) ha⟩

/-- Any failed outcome leaves the store state untouched. -/
lemma spend_failed_state (st : GameState) (tileId : String)
    (res : SpendableResource) (m : ℚ) (e : SpendFailure)
    (h : (spendResourceOnTile st tileId res m).2 = .failed e) :
    (spendResourceOnTile st tileId res m).1 = st := by
  rcases spend_cases st tileId res m with ⟨e', he⟩ | ⟨u, s, hs⟩
  · rw [he]
  · rw [hs] at h
    cases h

/-- C1: the five preconditions of `spendResourceOnTile` are checked in
source order — pool sufficiency, tile existence, `canInvest`, level below
`MAX_LEVEL`, region/activity compatibility — the first failing check
determines the typed failure reason, and every failure leaves the player
pools and the tile snapshot exactly unchanged. -/
theorem spendResourceOnTile_check_order_atomic (st : GameState) (tileId : String)
    (res : SpendableResource) (m : ℚ) :
    (∀ e, (spendResourceOnTile st tileId res m).2 = .failed e →
      (spendResourceOnTile st tileId res m).1 = st) ∧
    (poolOf st res < clampInt m 1 →
      spendResourceOnTile st tileId res m = (st, .failed .notEnoughResource)) ∧
    (clampInt m 1 ≤ poolOf st res → byId st.tiles tileId = none →
      spendResourceOnTile st tileId res m = (st, .failed .unknownTile)) ∧
    (∀ t, clampInt m 1 ≤ poolOf st res → byId st.tiles tileId = some t →
      canInvest t st.tiles = false →
      spendResourceOnTile st tileId res m = (st, .failed .notInvestable)) ∧
    (∀ t, clampInt m 1 ≤ poolOf st res → byId st.tiles tileId = some t →
      canInvest t st.tiles = true → MAX_LEVEL ≤ t.level →
      spendResourceOnTile st tileId res m = (st, .failed .alreadyMaxed)) ∧
    (∀ t, clampInt m 1 ≤ poolOf st res → byId st.tiles tileId = some t →
      canInvest t st.tiles = true → t.level < MAX_LEVEL →
      isActivityAllowedOnTile (activityForResource res) t = false →
      spendResourceOnTile st tileId res m = (st, .failed .realmMismatch)) := by
  refine ⟨spend_failed_state st tileId res m, ?_, ?_, ?_, ?_, ?_⟩
  · exact spend_fail_notEnough st tileId res m
  · exact fun hge => spend_fail_unknown st tileId res m (not_lt.mpr hge)
  · exact fun t hge => spend_fail_notInvestable st tileId res m t (not_lt.mpr hge)
  · exact fun t hge => spend_fail_maxed st tileId res m t (not_lt.mpr hge)
  · exact fun t hge hb hc hm => spend_fail_mismatch st tileId res m t (not_lt.mpr hge) hb hc hm

/-- C1 witness: each precondition observed failing first on a concrete
store state, with the state returned unchanged. -/
theorem spendResourceOnTile_check_order_atomic_witness :
    spendResourceOnTile stPoor "0-0" .craft 3 = (stPoor, .failed .notEnoughResource) ∧
    spendResourceOnTile stNoTile "9-9" .craft 1 = (stNoTile, .failed .unknownTile) ∧
    spendResourceOnTile stSealed "5-5" .vigor 1 = (stSealed, .failed .notInvestable) ∧
    spendResourceOnTile stMaxed "0-2" .vigor 1 = (stMaxed, .failed .alreadyMaxed) ∧
    spendResourceOnTile stCitadel "0-3" .vigor 1 = (stCitadel, .failed .realmMismatch) := by
  refine ⟨?_, ?_, ?_, ?_, ?_⟩
  · exact (spendResourceOnTile_check_order_atomic stPoor "0-0" .craft 3).2.1
      (by norm_num [stPoor, poolOf, clampInt])
  · exact (spendResourceOnTile_check_order_atomic stNoTile "9-9" .craft 1).2.2.1
      (by norm_num [stNoTile, poolOf, clampInt]) (by decide)
  · exact (spendResourceOnTile_check_order_atomic stSealed "5-5" .vigor 1).2.2.2.1
      tileDepthSealed (by norm_num [stSealed, poolOf, clampInt]) (by decide) (by decide)
  · exact (spendResourceOnTile_check_order_atomic stMaxed "0-2" .vigor 1).2.2.2.2.1
      tileMaxed (by norm_num [stMaxed, poolOf, clampInt]) (by decide) (by decide) (by decide)
  · exact (spendResourceOnTile_check_order_atomic stCitadel "0-3" .vigor 1).2.2.2.2.2
      tileCitadel (by norm_num [stCitadel, poolOf, clampInt]) (by decide) (by decide)
      (by decide) (by decide)

/-- C7: a tile with the void feature or in the Void Heart region is
hard-locked whatever its other fields, can never be invested into under
any index, and a spend targeting it always fails without touching the
state. -/
theorem void_tiles_never_investable (st : GameState) (tileId : String)
    (res : SpendableResource) (m : ℚ) (t : Tile)
    (hb : byId st.tiles tileId = some t)
    (hv : t.feature = some Feature.void ∨ t.region = Region.void_heart) :
    isHardLocked t = true ∧
    (∀ tiles' : List Tile, canInvest t tiles' = false) ∧
    (spendResourceOnTile st tileId res m).1 = st ∧
    (∃ e, (spendResourceOnTile st tileId res m).2 = .failed e) := by
  have hhl : isHardLocked t = true := by
    rcases hv with h | h <;> simp [isHardLocked, h]
  have hci : ∀ tiles' : List Tile, canInvest t tiles' = false := by
    intro tiles'
    simp [canInvest, isConquered, isFrontier, hhl]
  refine ⟨hhl, hci, ?_, ?_⟩
  · by_cases h1 : poolOf st res < clampInt m 1
    · rw [spend_fail_notEnough st tileId res m h1]
    · rw [spend_fail_notInvestable st tileId res m t h1 hb (hci st.tiles)]
  · by_cases h1 : poolOf st res < clampInt m 1
    · exact ⟨_, by rw [spend_fail_notEnough st tileId res m h1]⟩
    · exact ⟨_, by rw [spend_fail_notInvestable st tileId res m t h1 hb (hci st.tiles)]⟩

/-- C7 witness: the Void Heart fixture is hard-locked and a vigor spend
on it fails leaving the state unchanged. -/
theorem void_tiles_never_investable_witness :
    isHardLocked tileVoid = true ∧
    canInvest tileVoid stVoid.tiles = false ∧
    (spendResourceOnTile stVoid "4-4" .vigor 1).1 = stVoid := by
  have h := void_tiles_never_investable stVoid "4-4" .vigor 1 tileVoid
    (by decide) (Or.inl (by decide))
  exact ⟨h.1, h.2.1 stVoid.tiles, h.2.2.1⟩

lemma poolOf_setPool (st : GameState) (res : SpendableResource) (v : ℤ) :
    poolOf (setPool st res v) res = v := by
  cases res <;> rfl

lemma tiles_setPool (st : GameState) (res : SpendableResource) (v : ℤ) :
    (setPool st res v).tiles = st.tiles := by
  cases res <;> rfl

/-- C10: the requested minutes are clamped to `max(1, floor(minutes))`,
so every call with `minutes ≤ 1` — zero, negative or fractional — is
exactly the call with `minutes = 1`: it needs a pool of at least 1 and,
on success, debits the pool by exactly 1. -/
theorem spendResourceOnTile_clamps_minutes (st : GameState) (tileId : String)
    (res : SpendableResource) (m : ℚ) (h : m ≤ 1) :
    clampInt m 1 = 1 ∧
    spendResourceOnTile st tileId res m = spendResourceOnTile st tileId res 1 ∧
    (∀ st' u, spendResourceOnTile st tileId res m = (st', .ok u) →
      poolOf st' res = poolOf st res - 1) := by
  have hfl : ⌊m⌋ ≤ 1 := by
    have := Int.floor_le_floor h
    simpa using this
  have hcl : clampInt m 1 = 1 := by
    unfold clampInt
    exact max_eq_left hfl
  have hcl1 : clampInt 1 1 = 1 := by
    unfold clampInt
    norm_num
  have heq : spendResourceOnTile st tileId res m = spendResourceOnTile st tileId res 1 := by
    simp only [spendResourceOnTile, hcl, hcl1]
  refine ⟨hcl, heq, ?_⟩
  intro st' u hok
  by_cases h1 : poolOf st res < clampInt m 1
  · rw [spend_fail_notEnough st tileId res m h1] at hok
    exact absurd (congrArg Prod.snd hok) (by simp)
  · cases hb : byId st.tiles tileId with
    | none =>
      rw [spend_fail_unknown st tileId res m h1 hb] at hok
      exact absurd (congrArg Prod.snd hok) (by simp)
    | some t =>
      cases hc : canInvest t st.tiles with
      | false =>
        rw [spend_fail_notInvestable st tileId res m t h1 hb hc] at hok
        exact absurd (congrArg Prod.snd hok) (by simp)
      | true =>
        by_cases hm : MAX_LEVEL ≤ t.level
        · rw [spend_fail_maxed st tileId res m t h1 hb hc hm] at hok
          exact absurd (congrArg Prod.snd hok) (by simp)
        · cases ha : isActivityAllowedOnTile (activityForResource res) t with
          | false =>
            rw [spend_fail_mismatch st tileId res m t h1 hb hc (not_le.mp hm) ha] at hok
            exact absurd (congrArg Prod.snd hok) (by simp)
          | true =>
            rw [spend_success st tileId res m t h1 hb hc (not_le.mp hm) ha] at hok
            have hst : st' = setPool
                { st with tiles :=
                    if (t.feature == some Feature.gate) &&
                        decide (t.level < 1 ∧ 1 ≤ (applyMinutes t (clampInt m 1)).level) then
                      (st.tiles.map fun x =>
                          if x.id = (applyMinutes t (clampInt m 1)).id then
                            applyMinutes t (clampInt m 1) else x).map fun x =>
                        if x.region = Region.great_depths then { x with locked := 0 } else x
                    else
                      st.tiles.map fun x =>
                        if x.id = (applyMinutes t (clampInt m 1)).id then
                          applyMinutes t (clampInt m 1) else x }
                res (poolOf st res - clampInt m 1) :=
              (congrArg Prod.fst hok).symm
            rw [hst, poolOf_setPool, hcl]

/-- C10 witness: spending one half of a minute behaves exactly like
spending one minute. -/
theorem spendResourceOnTile_clamps_minutes_witness :
    clampInt (mkRat 1 2) 1 = 1 ∧
    spendResourceOnTile stPoor "0-0" .craft (mkRat 1 2) =
      spendResourceOnTile stPoor "0-0" .craft 1 := by
  have h := spendResourceOnTile_clamps_minutes stPoor "0-0" .craft (mkRat 1 2) (by decide)
  exact ⟨h.1, h.2.1⟩

/-- C4: when a spend raises a Gate-featured tile from level 0 to level
≥ 1 (outcome `ok true`), every Great Depths tile in the resulting
in-memory snapshot has its `locked` flag cleared, and (unless it is
void-featured) is no longer hard-locked, so a subsequent `canInvest`
check on the new snapshot is not blocked by the seal. -/
theorem gate_unlock_clears_great_depths (st : GameState) (tileId : String)
    (res : SpendableResource) (m : ℚ) (st' : GameState) (t : Tile)
    (hb : byId st.tiles tileId = some t)
    (hg : t.feature = some Feature.gate)
    (hres : spendResourceOnTile st tileId res m = (st', .ok true)) :
    ∀ x ∈ st'.tiles, x.region = Region.great_depths →
      x.locked = 0 ∧ (x.feature ≠ some Feature.void → isHardLocked x = false) := by
  by_cases h1 : poolOf st res < clampInt m 1
  · rw [spend_fail_notEnough st tileId res m h1] at hres
    exact absurd (congrArg Prod.snd hres) (by simp)
  · cases hc : canInvest t st.tiles with
    | false =>
      rw [spend_fail_notInvestable st tileId res m t h1 hb hc] at hres
      exact absurd (congrArg Prod.snd hres) (by simp)
    | true =>
      by_cases hm : MAX_LEVEL ≤ t.level
      · rw [spend_fail_maxed st tileId res m t h1 hb hc hm] at hres
        exact absurd (congrArg Prod.snd hres) (by simp)
      · cases ha : isActivityAllowedOnTile (activityForResource res) t with
        | false =>
          rw [spend_fail_mismatch st tileId res m t h1 hb hc (not_le.mp hm) ha] at hres
          exact absurd (congrArg Prod.snd hres) (by simp)
        | true =>
          rw [spend_success st tileId res m t h1 hb hc (not_le.mp hm) ha] at hres
          have hu : decide (t.level < 1 ∧ 1 ≤ (applyMinutes t (clampInt m 1)).level) = true := by
            have := congrArg Prod.snd hres
            simpa using this.symm
          have hgate : ((t.feature == some Feature.gate) &&
              decide (t.level < 1 ∧ 1 ≤ (applyMinutes t (clampInt m 1)).level)) = true := by
            rw [hg, hu]
            simp
          have hst : st' = setPool
              { st with tiles :=
                  (st.tiles.map fun x =>
                      if x.id = (applyMinutes t (clampInt m 1)).id then
                        applyMinutes t (clampInt m 1) else x).map fun x =>
                    if x.region = Region.great_depths then { x with locked := 0 } else x }
              res (poolOf st res - clampInt m 1) := by
            have := (congrArg Prod.fst hres).symm
            rwa [hgate, if_pos rfl] at this
          intro x hx hreg
          rw [hst, tiles_setPool] at hx

          rcases List.mem_map.mp hx with ⟨y, _, hy⟩
          by_cases hyr : y.region = Region.great_depths
          · rw [if_pos hyr] at hy
            subst hy
            refine ⟨rfl, fun hf => ?_⟩
            simp only [isHardLocked]
            have : y.region = Region.great_depths := hyr
            simp [this, hf]
          · rw [if_neg hyr] at hy
            subst hy
            exact absurd hreg hyr

/-- C4 witness: spending 81 vigor on the frontier Gate tile conquers it
and the sealed Great Depths tile comes out unlocked and no longer
hard-locked in the very state the call returns. -/
theorem gate_unlock_clears_great_depths_witness :
    tileDepthOpen ∈ stGateAfter.tiles ∧
    tileDepthOpen.locked = 0 ∧
    isHardLocked tileDepthOpen = false := by
  have hres : spendResourceOnTile stGate "0-1" .vigor 81 = (stGateAfter, .ok true) := by
    simp only [spendResourceOnTile, clampInt, poolOf, byId, stGate, stGateAfter,
      tileConquered, tileGate, tileGateDone, tileDepthSealed, tileDepthOpen,
      canInvest, isConquered, isFrontier, isHardLocked, touchesConquered, neighbors8, N8,
      byPos, MAX_LEVEL, isActivityAllowedOnTile, normalizeActivity, allowedActivitiesForRegion,
      regionGroup, groupAllowedActivities, activityForResource, applyMinutes,
      computeLevelFromTotalMinutes, levelLoop, totalRequiredForLevel, segmentNeed_eq, sixtyMult,
      setPool, List.foldl, List.map, List.any, List.contains, List.elem]
    decide
  have h := gate_unlock_clears_great_depths stGate "0-1" .vigor 81 stGateAfter tileGate
    (by decide) rfl hres tileDepthOpen (by decide) rfl
  exact ⟨by decide, h.1, h.2 (by decide)⟩

/-- C2 counterexample: on the layout row `"12"`, a pre-existing tile row
`0-0` with `locked = 1` comes out of `syncInnerRealmToLayout` with
`locked = 0` — the sync pass unseals it, although
`max(existingLocked, layoutDefaultLocked) = max(1, 0) = 1`. -/
theorem syncInnerRealm_unseals_locked_tile :
    ((syncInnerRealmToLayout ["12"] syncDb0).tiles.map fun t => (t.id, t.locked)) =
      [("0-0", 0), ("0-1", 0)] ∧
    (syncDb0.tiles.map fun t => (t.id, t.locked)) = [("0-0", 1)] ∧
    max (1 : ℤ) (decodeLayoutChar '1' false).defaultLocked = 1 := by
  decide

/-- C2 (amended): for an already-existing tile row (its id is in the
pre-loop snapshot), the per-position UPDATE of the sync loop overwrites
the `locked` flag with the decoded layout default — the previous value is
ignored, not joined with `max`. -/
theorem syncStep_overwrites_locked (layout : List String) (g : Bool)
    (origIds : List String) (db : List TileRow) (r c : ℕ) (t : TileRow)
    (horig : origIds.contains (mkId r c) = true)
    (hmem : t ∈ syncStep layout g origIds db (r, c))
    (hid : t.id = mkId r c) :
    t.locked = (decodeLayoutChar (charAt layout r c) g).defaultLocked ∧
    t.row = (r : ℤ) ∧ t.col = (c : ℤ) := by
  simp only [syncStep] at hmem
  rw [horig] at hmem
  simp only [if_true] at hmem
  rcases List.mem_map.mp hmem with ⟨y, _, hy⟩
  by_cases hyid : y.id = mkId r c
  · rw [if_pos hyid] at hy
    subst hy
    exact ⟨rfl, rfl, rfl⟩
  · rw [if_neg hyid] at hy
    subst hy
    exact absurd hid hyid

/-- C2 witness for the amended statement: the updated row of the
counterexample grid carries exactly the decoded default lock. -/
theorem syncStep_overwrites_locked_witness :
    (TileRow.mk "0-0" 0 0 "mountains_doubt" 0 0 none 0).locked =
      (decodeLayoutChar (charAt ["12"] 0 0) false).defaultLocked ∧
    (TileRow.mk "0-0" 0 0 "mountains_doubt" 0 0 none 0).row = (0 : ℤ) := by
  have h := syncStep_overwrites_locked ["12"] false ["0-0"] syncDb0.tiles 0 0
    (TileRow.mk "0-0" 0 0 "mountains_doubt" 0 0 none 0)
    (by decide) (by decide) (by decide)
  exact ⟨h.1, h.2.1⟩

/-- C8: the fixed 60/180/360 thresholds of the `initDb` level-repair
UPDATE disagree with the region-scaled Progression Calculator: the very
row the seeder writes for the start anchor (level 1 at the mountains
threshold 54) is demoted back to level 0 by the repair pass, while
`computeLevelFromTotalMinutes(54, mountains_doubt) = 1`. -/
theorem initDb_repair_disagrees_with_progression :
    ((initDbRepair [startTileRow]).map fun t => t.level) = [0] ∧
    computeLevelFromTotalMinutes 54 Region.mountains_doubt = 1 ∧
    totalRequiredForLevel 1 Region.mountains_doubt = 54 ∧
    repairLevel 54 = 0 := by
  refine ⟨by decide, ?_, ?_, by decide⟩
  · simp [computeLevelFromTotalMinutes, levelLoop, totalRequiredForLevel, MAX_LEVEL, sixtyMult]
  · simp [totalRequiredForLevel, sixtyMult]

lemma latestBy_cons_ne_none (key : TimerRow → ℤ) :
    ∀ (xs : List TimerRow) (b : TimerRow),
      xs.foldl
        (fun acc r =>
          match acc with
          | none => some r
          | some bb => if key bb < key r then some r else acc)
        (some b) ≠ none := by
  intro xs
  induction xs with
  | nil => intro b h; cases h
  | cons y ys ih =>
    intro b
    simp only [List.foldl]
    by_cases hk : key b < key y
    · rw [if_pos hk]; exact ih y
    · rw [if_neg hk]; exact ih b

lemma latestBy_ne_none (rows : List TimerRow) (key : TimerRow → ℤ)
    (h : rows ≠ []) : latestBy rows key ≠ none := by
  cases rows with
  | nil => exact absurd rfl h
  | cons x xs =>
    unfold latestBy
    simp only [List.foldl]
    exact latestBy_cons_ne_none key xs x

/-- C9 (amended): `startSession` refuses — inserting no row — whenever a
session with status `running` already exists; the guard queries only
`status = 'running'`, so a `stopped` session does not block a new start. -/
theorem startSession_refuses_when_running (st : TimerStore) (a : Activity)
    (mo : TimerMode) (d : Option ℚ) (now : ℤ) (id : String)
    (h : ∃ s ∈ st.db, s.status = TimerStatus.running) :
    (startSession st a mo d now id).1.db = st.db ∧
    ∃ run, (startSession st a mo d now id).2 = .alreadyRunning run := by
  obtain ⟨s, hs, hstat⟩ := h
  have hne : st.db.filter (fun r => r.status == TimerStatus.running) ≠ [] :=
    List.ne_nil_of_mem (List.mem_filter.mpr ⟨hs, by simp [hstat]⟩)
  cases hl : latestBy (st.db.filter fun r => r.status == TimerStatus.running)
      (fun r => r.startedAt) with
  | none => exact absurd hl (latestBy_ne_none _ _ hne)
  | some run =>
    simp only [startSession]
    rw [hl]
    exact ⟨rfl, run, rfl⟩

/-- C9 witness for the amended statement: with a running session in the
table, a new start is refused and the table is unchanged. -/
theorem startSession_refuses_when_running_witness :
    (startSession timerRunningStore .study .countup none 7 "s9").1.db =
      timerRunningStore.db ∧
    (startSession timerRunningStore .study .countup none 7 "s9").2 =
      .alreadyRunning (TimerRow.mk "r1" .work .countup 0 none none .running) := by
  have h := startSession_refuses_when_running timerRunningStore .study .countup none 7 "s9"
    ⟨TimerRow.mk "r1" .work .countup 0 none none .running, by decide, rfl⟩
  exact ⟨h.1, by decide⟩

/-- C9 counterexample: start, stop, then start again — the second
`startSession` succeeds although a non-committed (stopped) session still
exists, leaving two non-committed `TimerSession` rows at once. -/
theorem startSession_allows_second_noncommitted :
    (timerSt2.db.map fun s => s.status) = [TimerStatus.stopped] ∧
    (startSession timerSt2 .work .countup none 10 "s2").2 =
      .ok (TimerRow.mk "s2" .work .countup 10 none none .running) ∧
    (nonCommitted (startSession timerSt2 .work .countup none 10 "s2").1.db).length = 2 := by
  decide

end InnerRealm
